import Mathlib

/-!
Verification of the `oidc-role-manager` repository (Python).

Shallow embedding of:
  * `src/oidc_role_manager/config_loader.py` (RoleConfig, _load_json_file,
    load_role_config, discover_role_configs)
  * `src/oidc_role_manager/iam_resources.py` (the resource definition builder
    `create_iam_role_for_github_oidc` and its helpers)
  * `src/oidc_role_manager/constants.py` (DEFAULT_TAGS)
  * `src/oidc_role_manager/pulumi_manager.py` (`_create_pulumi_program` export naming)
  * `src/cli.py` (exit codes, account-scoped stack names)

Conventions of the embedding:
  * Parsed JSON values are the inductive `Json` below.  Python `dict`s coming
    from `json.load` are association lists `List (String × Json)` in insertion
    order with unique keys (as in Python 3.7+ dicts).
  * The filesystem is passed in as data: a role directory is an association
    list from file name to `Option Json`, where `none` models a file whose text
    does not decode as JSON (`json.JSONDecodeError`), and `some j` a file whose
    text decodes to `j`.  An account directory maps role directory names to
    role directories; the whole roles tree maps account ids to account
    directories.  Real directory listings have unique names.
  * Fallible Python code (raising `ConfigError` / `KeyError`) is modelled with
    `Except String` / `Option`.
  * `os.path.join` is modelled with the POSIX separator "/".
-/

/-- Parsed JSON values, the result of Python `json.load`. -/
inductive Json where
  | null : Json
  | bool (b : Bool) : Json
  | num (n : Int) : Json
  | str (s : String) : Json
  | arr (elems : List Json) : Json
  | obj (fields : List (String × Json)) : Json

/-- Lookup in a Python dict modelled as an association list (`d[k]` / `d.get(k)`,
first occurrence; dicts built by `json.load` have unique keys). -/
def lookupKey {α : Type} : List (String × α) → String → Option α
  | [], _ => none
  | (k', v) :: rest, k => if k' = k then some v else lookupKey rest k

/-- Python `d[k] = v` on a dict: replace the value of an existing key in place,
else append the new binding (insertion order semantics). -/
def setKey {α : Type} : List (String × α) → String → α → List (String × α)
  | [], k, v => [(k, v)]
  | (k', v') :: rest, k, v =>
      if k' = k then (k, v) :: rest else (k', v') :: setKey rest k v

/-- Python `d.update(m)`: set every binding of `m` into `d`, in order. -/
def updateKeys {α : Type} (d m : List (String × α)) : List (String × α) :=
  m.foldl (fun acc kv => setKey acc kv.1 kv.2) d

/-- The first option when present, else the fallback (the lookup behaviour of
an updated dict). -/
def orDefault {α : Type} (o fallback : Option α) : Option α :=
  match o with
  | some v => some v
  | none => fallback

/-- Fuel-driven scanner behind `removeAllOcc`; fuel at least the length of the
subject string makes it total while keeping structural recursion. -/
def removeAllAux : Nat → List Char → List Char → List Char
  | 0, _, s => s
  | _ + 1, _, [] => []
  | fuel + 1, pat, c :: cs =>
      if pat ≠ [] ∧ pat.isPrefixOf (c :: cs) then
        removeAllAux fuel pat (List.drop pat.length (c :: cs))
      else
        c :: removeAllAux fuel pat cs

/-- Python `s.replace(pat, "")`: delete every occurrence of `pat`, scanning left
to right without overlap. -/
def removeAllOcc (pat s : List Char) : List Char :=
  removeAllAux s.length pat s

/-- Python `s.replace(pat, "", 1)`: delete the first occurrence of `pat`. -/
def removeFirstOcc (pat : List Char) : List Char → List Char
  | [] => []
  | c :: cs =>
      if pat.isPrefixOf (c :: cs) then List.drop pat.length (c :: cs)
      else c :: removeFirstOcc pat cs

/-- Python `s.replace(pat, "")` lifted to `String`. -/
def pyReplaceAllEmpty (s pat : String) : String :=
  String.mk (removeAllOcc pat.data s.data)

/-- Python `s.replace(pat, "", 1)` lifted to `String`. -/
def pyReplaceOnceEmpty (s pat : String) : String :=
  String.mk (removeFirstOcc pat.data s.data)

-- Basic lemmas about the dict operations.

theorem lookupKey_eq_none_of_not_mem {α : Type} (d : List (String × α)) (k : String)
    (h : k ∉ d.map Prod.fst) : lookupKey d k = none := by
  induction d with
  | nil => rfl
  | cons kv rest ih =>
    obtain ⟨k', v⟩ := kv
    simp only [List.map_cons, List.mem_cons, not_or] at h
    have hne : ¬ k' = k := fun hk => h.1 hk.symm
    simp [lookupKey, hne, ih h.2]

theorem lookupKey_setKey_self {α : Type} (d : List (String × α)) (k : String) (v : α) :
    lookupKey (setKey d k v) k = some v := by
  induction d with
  | nil => simp [setKey, lookupKey]
  | cons kv rest ih =>
    obtain ⟨k', v'⟩ := kv
    by_cases h : k' = k
    · simp [setKey, h, lookupKey]
    · simp [setKey, h, lookupKey, ih]

theorem lookupKey_setKey_ne {α : Type} (d : List (String × α)) (k k' : String) (v : α)
    (h : k' ≠ k) : lookupKey (setKey d k v) k' = lookupKey d k' := by
  have hne : ¬ k = k' := fun hk => h hk.symm
  induction d with
  | nil => simp [setKey, lookupKey, hne]
  | cons kv rest ih =>
    obtain ⟨k0, v0⟩ := kv
    by_cases h0 : k0 = k
    · subst h0
      simp [setKey, lookupKey, hne]
    · simp only [setKey, if_neg h0, lookupKey]
      by_cases h1 : k0 = k'
      · simp [h1]
      · simp [h1, ih]

theorem lookupKey_updateKeys {α : Type} (m : List (String × α))
    (hnd : (m.map Prod.fst).Nodup) :
    ∀ (d : List (String × α)) (k : String),
      lookupKey (updateKeys d m) k =
        orDefault (lookupKey m k) (lookupKey d k) := by
  induction m with
  | nil => intro d k; rfl
  | cons kv rest ih =>
    obtain ⟨k0, v0⟩ := kv
    simp only [List.map_cons, List.nodup_cons] at hnd
    intro d k
    have hstep : updateKeys d ((k0, v0) :: rest) = updateKeys (setKey d k0 v0) rest := rfl
    rw [hstep, ih hnd.2]
    by_cases hk : k0 = k
    · subst hk
      have : lookupKey rest k0 = none :=
        lookupKey_eq_none_of_not_mem rest k0 hnd.1
      simp [this, lookupKey, lookupKey_setKey_self, orDefault]
    · simp only [lookupKey, if_neg hk]
      cases hrest : lookupKey rest k with
      | some v => simp [orDefault]
      | none => simp [orDefault, lookupKey_setKey_ne d k0 k v0 (fun h => hk h.symm)]

/-! ## config_loader.py -/

/-- A role directory on disk: file name to decoded content (`none` models a file
whose text is not valid JSON). -/
abbrev FileTree := List (String × Option Json)

/-- An account directory: role directory names to role directories. -/
abbrev AccountTree := List (String × FileTree)

/-- The roles tree (the `--roles-dir` directory): account ids to account
directories. -/
abbrev RolesTree := List (String × AccountTree)

/-- The `os.path.join(base_roles_dir, account_id, role_name_dir)` path of a role
directory (POSIX separator). -/
def roleDirPath (base account role : String) : String :=
  base ++ "/" ++ account ++ "/" ++ role

/-- Embeds `config_loader.RoleConfig.__init__`: the fully loaded configuration
for a single IAM role. -/
structure RoleConfig where
  account_id : String
  role_name_dir : String
  details : List (String × Json)
  managed_policies : List Json
  inline_policies : List (String × Json)
  base_dir : String

/-- Embeds `RoleConfig.path = os.path.join(base_dir, account_id, role_name_dir)`. -/
def RoleConfig.path (c : RoleConfig) : String :=
  roleDirPath c.base_dir c.account_id c.role_name_dir

/-- Embeds the `RoleConfig.role_name` property, `details.get('roleName')`. -/
def RoleConfig.roleNameDetail (c : RoleConfig) : Option Json :=
  lookupKey c.details "roleName"

/-- Embeds `_load_json_file(path, is_list=False, optional)`: load a JSON file
and require a JSON object.  Error strings mirror the `ConfigError` messages. -/
def loadJsonObj (dir : FileTree) (fname : String) (opt : Bool) :
    Except String (List (String × Json)) :=
  match lookupKey dir fname with
  | none =>
      if opt then Except.ok []
      else Except.error ("Required config file not found: " ++ fname)
  | some none => Except.error ("Error decoding JSON from " ++ fname)
  | some (some (Json.obj m)) => Except.ok m
  | some (some _) =>
      Except.error ("Config file " ++ fname ++ " is not a valid JSON object.")

/-- Embeds `_load_json_file(path, is_list=True, optional)`: load a JSON file and
require a JSON list. -/
def loadJsonList (dir : FileTree) (fname : String) (opt : Bool) :
    Except String (List Json) :=
  match lookupKey dir fname with
  | none =>
      if opt then Except.ok []
      else Except.error ("Required config file not found: " ++ fname)
  | some none => Except.error ("Error decoding JSON from " ++ fname)
  | some (some (Json.arr l)) => Except.ok l
  | some (some _) =>
      Except.error ("Config file " ++ fname ++ " is not a valid JSON list.")

/-- The filename filter of the inline-policy loop in `load_role_config`:
`item_name.startswith("inline-") and item_name.endswith(".json")`. -/
def isInlineFileName (fname : String) : Bool :=
  "inline-".data.isPrefixOf fname.data && ".json".data.isSuffixOf fname.data

/-- Embeds the inline-policy loop of `load_role_config`: every listed file
matching `inline-*.json` whose content decodes to a JSON object is kept
(keyed by its file name); decode failures and non-objects are skipped with a
warning.  Directory listings have unique file names, so reading the file at
its path yields the content stored in its listing entry. -/
def inlinePoliciesOf (dir : FileTree) : List (String × Json) :=
  dir.filterMap (fun fc =>
    if isInlineFileName fc.1 then
      match fc.2 with
      | some (Json.obj m) => some (fc.1, Json.obj m)
      | _ => none
    else none)

/-- The required `details.json` fields checked by `load_role_config`. -/
def requiredDetailsFields : List String :=
  ["roleName", "oidcProviderUrl", "githubSubjectClaim"]

/-- Embeds `load_role_config(base_roles_dir, account_id, role_name_dir)`. -/
def loadRoleConfig (base : String) (fs : RolesTree) (account role : String) :
    Except String RoleConfig :=
  match lookupKey fs account with
  | none => Except.error ("Role directory not found: " ++ roleDirPath base account role)
  | some tree =>
    match lookupKey tree role with
    | none => Except.error ("Role directory not found: " ++ roleDirPath base account role)
    | some dir =>
      match loadJsonObj dir "details.json" false with
      | Except.error e => Except.error e
      | Except.ok m =>
        if (requiredDetailsFields.filter (fun f => (lookupKey m f).isNone)).isEmpty then
          match loadJsonList dir "managed-policies.json" true with
          | Except.error e => Except.error e
          | Except.ok l =>
              Except.ok ⟨account, role, m, l, inlinePoliciesOf dir, base⟩
        else
          Except.error ("Missing required fields in details.json")

/-- Embeds `discover_role_configs(base_roles_dir, target_account_id,
target_role_name)`: returns `[]` when the account directory or the filtered
role directory is missing, otherwise loads each candidate role directory and
skips the ones whose load raises `ConfigError`. -/
def discoverRoleConfigs (base : String) (fs : RolesTree) (account : String)
    (roleFilter : Option String) : List RoleConfig :=
  match lookupKey fs account with
  | none => []
  | some tree =>
    let toProcess : List String :=
      match roleFilter with
      | some r => if (lookupKey tree r).isSome then [r] else []
      | none => tree.map Prod.fst
    toProcess.filterMap (fun r => (loadRoleConfig base fs account r).toOption)

/-! ## constants.py -/

/-- Embeds `constants.DEFAULT_TAGS`. -/
def DEFAULT_TAGS : List (String × Json) :=
  [("ManagedBy", Json.str "OIDC-Role-Manager"),
   ("Environment", Json.str "Development"),
   ("Tool", Json.str "Pulumi"),
   ("Purpose", Json.str "OIDC-GitHub-Integration")]

/-! ## iam_resources.py -/

/-- The scheme stripping inside `_construct_github_oidc_provider_details`:
drop a leading `https://` (8 characters) when present. -/
def stripScheme (url : String) : String :=
  if "https://".data.isPrefixOf url.data then String.mk (url.data.drop 8) else url

/-- Embeds `_construct_github_oidc_provider_details`: the OIDC provider ARN and
the issuer URL without scheme. -/
def constructGithubOidcProviderDetails (account_id url : String) : String × String :=
  let noScheme := stripScheme url
  ("arn:aws:iam::" ++ account_id ++ ":oidc-provider/" ++ noScheme, noScheme)

/-- One statement of an IAM assume-role policy document, as built by
`_generate_github_assume_role_policy`: the condition maps operator names
(such as "StringEquals") to key/value bindings. -/
structure TrustStatement where
  effect : String
  principalFederated : String
  action : String
  condition : List (String × List (String × String))
deriving DecidableEq

/-- An IAM assume-role policy document. -/
structure TrustPolicy where
  version : String
  statements : List TrustStatement
deriving DecidableEq

/-- Embeds `_generate_github_assume_role_policy(oidc_provider_arn,
oidc_url_no_scheme, subject_claim, audience)`. -/
def generateGithubAssumeRolePolicy (arn noScheme sub aud : String) : TrustPolicy :=
  { version := "2012-10-17",
    statements :=
      [{ effect := "Allow",
         principalFederated := arn,
         action := "sts:AssumeRoleWithWebIdentity",
         condition :=
           [("StringEquals",
             [(noScheme ++ ":sub", sub), (noScheme ++ ":aud", aud)])] }] }

/-- The role-specific tag overrides read by `_prepare_tags`: `details['tags']`
when present and a dict, else nothing. -/
def roleTags (c : RoleConfig) : List (String × Json) :=
  match lookupKey c.details "tags" with
  | some (Json.obj m) => m
  | _ => []

/-- Embeds `_prepare_tags(config)`: default tags updated with the role-specific
tags, then the computed `ConfigPath` and `AccountId` traceability tags. -/
def prepareTags (c : RoleConfig) : List (String × Json) :=
  let merged :=
    match lookupKey c.details "tags" with
    | some (Json.obj m) => updateKeys DEFAULT_TAGS m
    | _ => DEFAULT_TAGS
  setKey (setKey merged "ConfigPath" (Json.str c.path)) "AccountId" (Json.str c.account_id)

/-- The inline-policy name cleaning in `_attach_inline_policies`:
`policy_file_name.replace("inline-", "", 1).replace(".json", "")`. -/
def cleanedPolicyName (fname : String) : String :=
  pyReplaceAllEmpty (pyReplaceOnceEmpty fname "inline-") ".json"

/-- What the natural-language description of the claim would compute instead:
strip exactly the fixed leading `inline-` and the fixed trailing `.json` from
the file name, leaving the middle intact.  Stated for comparison with
`cleanedPolicyName`, which is the embedding of the source. -/
def specStripPolicyName (fname : String) : String :=
  let mid := fname.data.drop "inline-".length
  String.mk (mid.take (mid.length - ".json".length))

/-- The desired-state identity of the resources defined by one call of
`create_iam_role_for_github_oidc`: every deterministic identifier and document
the builder passes to the Pulumi resource constructors. -/
structure BuiltRole where
  pulumiRoleName : String
  awsRoleName : String
  description : Option Json
  assumeRolePolicy : TrustPolicy
  tags : List (String × Json)
  managedAttachments : List (String × Json)
  inlinePolicies : List (String × String × Json)
  stackExports : List String

instance : Inhabited BuiltRole :=
  ⟨⟨"", "", none, ⟨"", []⟩, [], [], [], []⟩⟩

/-- The `config.details.get('audience', 'sts.amazonaws.com')` read in
`create_iam_role_for_github_oidc` (`none` for a non-string value, which is
outside the `audience: str` typing of the policy generator). -/
def audienceOf (details : List (String × Json)) : Option String :=
  match lookupKey details "audience" with
  | none => some "sts.amazonaws.com"
  | some (Json.str a) => some a
  | some _ => none

/-- Embeds `create_iam_role_for_github_oidc(config, pulumi_provider)`.  The
optional provider only selects the Pulumi resource options; it reaches none of
the identifiers, documents or tags recorded in `BuiltRole`.  Returns `none`
when a required detail is missing or not a string (Python would raise
`KeyError` or violate the helpers' `str` typing). -/
def createIamRoleForGithubOidc (c : RoleConfig) (pulumiProvider : Option String) :
    Option BuiltRole :=
  match lookupKey c.details "roleName", lookupKey c.details "oidcProviderUrl",
        lookupKey c.details "githubSubjectClaim" with
  | some (Json.str roleName), some (Json.str url), some (Json.str sub) =>
    match audienceOf c.details with
    | none => none
    | some aud =>
      let base := c.account_id ++ "-" ++ roleName
      let pd := constructGithubOidcProviderDetails c.account_id url
      some
        { pulumiRoleName := base ++ "-role",
          awsRoleName := roleName,
          description := lookupKey c.details "description",
          assumeRolePolicy := generateGithubAssumeRolePolicy pd.1 pd.2 sub aud,
          tags := prepareTags c,
          managedAttachments :=
            c.managed_policies.enum.map
              (fun p => (base ++ "-managed-" ++ toString p.1, p.2)),
          inlinePolicies :=
            c.inline_policies.map
              (fun fp => (base ++ "-inline-" ++ cleanedPolicyName fp.1,
                          roleName ++ "-" ++ cleanedPolicyName fp.1, fp.2)),
          stackExports := [base ++ "_role_arn", base ++ "_role_name"] }
  | _, _, _ => none

/-! ## cli.py -/

/-- Embeds the `ExitCodes` class of `cli.py`. -/
def ExitCodes.SUCCESS : Nat := 0

/-- Embeds `ExitCodes.GENERAL_ERROR`. -/
def ExitCodes.GENERAL_ERROR : Nat := 1

/-- Embeds `ExitCodes.CONFIG_ERROR`. -/
def ExitCodes.CONFIG_ERROR : Nat := 2

/-- Embeds `ExitCodes.VALIDATION_ERROR`. -/
def ExitCodes.VALIDATION_ERROR : Nat := 3

/-- Embeds `ExitCodes.AWS_ERROR`. -/
def ExitCodes.AWS_ERROR : Nat := 4

/-- The exception classes caught by the `deploy` command's handlers. -/
inductive DeployError where
  | keyboardInterrupt : DeployError
  | configError : DeployError
  | unexpected : DeployError
deriving DecidableEq

/-- The exit status `deploy` passes to `sys.exit` for each caught exception
class: `ConfigError` during discovery exits `CONFIG_ERROR`;
`KeyboardInterrupt` and every other exception exit `GENERAL_ERROR`
(cli.py lines 203-208 and 333-341). -/
def deployExceptionExitCode : DeployError → Nat
  | DeployError.keyboardInterrupt => ExitCodes.GENERAL_ERROR
  | DeployError.configError => ExitCodes.CONFIG_ERROR
  | DeployError.unexpected => ExitCodes.GENERAL_ERROR

/-- The account-specific stack name computed by `deploy`:
`f"{stack_name}-{account_id}"` (cli.py line 161). -/
def deployAccountStackName (stackName accountId : String) : String :=
  stackName ++ "-" ++ accountId

/-- The account-specific stack name computed by `destroy` (cli.py line 371). -/
def destroyAccountStackName (stackName accountId : String) : String :=
  stackName ++ "-" ++ accountId

/-- The account-specific stack name computed by `status` (cli.py line 502). -/
def statusAccountStackName (stackName accountId : String) : String :=
  stackName ++ "-" ++ accountId

/-! ## pulumi_manager.py -/

/-- The export-name base of `_create_pulumi_program`:
`role_name.replace('GitHubAction', '').replace('Deploy', '')`, falling back to
the unmodified role name when the result is empty. -/
def exportBase (roleName : String) : String :=
  let cleaned := pyReplaceAllEmpty (pyReplaceAllEmpty roleName "GitHubAction") "Deploy"
  if cleaned = "" then roleName else cleaned

/-- The stack-output map produced by the export loop of
`_create_pulumi_program` over the created roles, given each role's name and
the `arn`/`name` values of its role resource.  `pulumi.export` on a repeated
key overwrites the earlier value. -/
def pulumiProgramExports (roles : List (String × String × String)) :
    List (String × String) :=
  roles.foldl
    (fun acc r =>
      setKey (setKey acc (exportBase r.1 ++ "_arn") r.2.1)
        (exportBase r.1 ++ "_name") r.2.2)
    []

/-! ## Claim theorems -/

/-- C3: for every base stack name `B` and account id `A`, each account-scoped
CLI operation (deploy, destroy, status) computes the deployment-unit (stack)
identifier `B ++ "-" ++ A`, a pure function of the pair; and for two distinct
account ids under the same base name the three computed identifiers differ, so
distinct accounts never share deployment state. -/
theorem claim_C3_account_stack_name (B A1 A2 : String) (hne : A1 ≠ A2) :
    deployAccountStackName B A1 = B ++ "-" ++ A1 ∧
    destroyAccountStackName B A1 = B ++ "-" ++ A1 ∧
    statusAccountStackName B A1 = B ++ "-" ++ A1 ∧
    deployAccountStackName B A1 ≠ deployAccountStackName B A2 ∧
    destroyAccountStackName B A1 ≠ destroyAccountStackName B A2 ∧
    statusAccountStackName B A1 ≠ statusAccountStackName B A2 := by
  have key : B ++ "-" ++ A1 ≠ B ++ "-" ++ A2 := by
    intro h
    apply hne
    have hd := congrArg String.data h
    simp only [String.data_append] at hd
    exact String.ext (List.append_cancel_left hd)
  exact ⟨rfl, rfl, rfl, key, key, key⟩

/-- Witness for C3 at base name "dev" and the two distinct accounts
123456789012 and 210987654321. -/
theorem claim_C3_account_stack_name_witness :
    deployAccountStackName "dev" "123456789012" = "dev-123456789012" ∧
    destroyAccountStackName "dev" "123456789012" = "dev-123456789012" ∧
    statusAccountStackName "dev" "123456789012" = "dev-123456789012" ∧
    deployAccountStackName "dev" "123456789012" ≠ deployAccountStackName "dev" "210987654321" ∧
    destroyAccountStackName "dev" "123456789012" ≠ destroyAccountStackName "dev" "210987654321" ∧
    statusAccountStackName "dev" "123456789012" ≠ statusAccountStackName "dev" "210987654321" :=
  claim_C3_account_stack_name "dev" "123456789012" "210987654321" (by decide)

/-- C9 counterexample: the claim asserts that a user interrupt exits with a
status distinct from the other documented classes (0 success, 1 general, 2
config); but `deploy` maps `KeyboardInterrupt` to `ExitCodes.GENERAL_ERROR`,
so the interrupt status is not distinct from the general-error status. -/
theorem claim_C9_counterexample :
    ¬ (deployExceptionExitCode DeployError.keyboardInterrupt ≠ ExitCodes.SUCCESS ∧
       deployExceptionExitCode DeployError.keyboardInterrupt ≠ ExitCodes.GENERAL_ERROR ∧
       deployExceptionExitCode DeployError.keyboardInterrupt ≠ ExitCodes.CONFIG_ERROR) := by
  decide

/-- C9 amended: a user interrupt during `deploy` exits non-zero with
`GENERAL_ERROR = 1`, the same status as general/unexpected errors (so it is
distinct from success and from configuration errors, but user cancellation has
no exit status of its own in the taxonomy). -/
theorem claim_C9_interrupt_exit_code :
    deployExceptionExitCode DeployError.keyboardInterrupt = ExitCodes.GENERAL_ERROR ∧
    ExitCodes.GENERAL_ERROR = 1 ∧
    deployExceptionExitCode DeployError.keyboardInterrupt ≠ ExitCodes.SUCCESS ∧
    deployExceptionExitCode DeployError.keyboardInterrupt ≠ ExitCodes.CONFIG_ERROR ∧
    deployExceptionExitCode DeployError.keyboardInterrupt =
      deployExceptionExitCode DeployError.unexpected := by
  decide

/-- C10: the per-role stack-output export names delete every occurrence of
"GitHubAction" and "Deploy" from the role name (falling back to the unmodified
name only when the result is empty) and append "_arn"/"_name"; the derivation
is not injective — the distinct role names "GitHubActionX" and "X" collide on
export base "X", and in a batch containing both, the later role's exported
values overwrite the earlier role's under the shared keys. -/
theorem claim_C10_export_name_collision :
    exportBase "GitHubActionX" = "X" ∧
    exportBase "X" = "X" ∧
    "GitHubActionX" ≠ "X" ∧
    exportBase "Deploy" = "Deploy" ∧
    pulumiProgramExports [("GitHubActionX", "arnA", "nameA"), ("X", "arnB", "nameB")] =
      [("X_arn", "arnB"), ("X_name", "nameB")] := by
  decide

/-- Inversion of a successful `loadRoleConfig`: the account and role
directories were found, `details.json` loaded as an object with no missing
required field, `managed-policies.json` loaded as a list, and the returned
RoleConfig is built from exactly those parts. -/
theorem loadRoleConfig_ok_inv {base account role : String} {fs : RolesTree}
    {cfg : RoleConfig} (h : loadRoleConfig base fs account role = Except.ok cfg) :
    ∃ tree dir m l,
      lookupKey fs account = some tree ∧
      lookupKey tree role = some dir ∧
      loadJsonObj dir "details.json" false = Except.ok m ∧
      (requiredDetailsFields.filter (fun f => (lookupKey m f).isNone)).isEmpty = true ∧
      loadJsonList dir "managed-policies.json" true = Except.ok l ∧
      cfg = ⟨account, role, m, l, inlinePoliciesOf dir, base⟩ := by
  unfold loadRoleConfig at h
  split at h
  next => simp at h
  next tree hacct =>
    split at h
    next => simp at h
    next dir hrole =>
      split at h
      next e hdet => simp at h
      next m hdet =>
        split at h
        next hmiss =>
          split at h
          next e hman => simp at h
          next l hman =>
            refine ⟨tree, dir, m, l, hacct, hrole, hdet, hmiss, hman, ?_⟩
            cases h
            rfl
        next hmiss => simp at h

/-- A successfully loaded RoleConfig records the role directory name it was
loaded from. -/
theorem loadRoleConfig_ok_role_name_dir {base account role : String} {fs : RolesTree}
    {cfg : RoleConfig} (h : loadRoleConfig base fs account role = Except.ok cfg) :
    cfg.role_name_dir = role := by
  obtain ⟨_, _, _, _, _, _, _, _, _, hcfg⟩ := loadRoleConfig_ok_inv h
  rw [hcfg]

/-- Discovery without a role filter over an existing account directory is the
load of every listed role directory, keeping the successes. -/
theorem discoverRoleConfigs_none_eq (base : String) {account : String} {fs : RolesTree}
    {tree : AccountTree} (hacct : lookupKey fs account = some tree) :
    discoverRoleConfigs base fs account none =
      (tree.map Prod.fst).filterMap
        (fun r => (loadRoleConfig base fs account r).toOption) := by
  unfold discoverRoleConfigs
  rw [hacct]

/-- C5: for a role filter `R` naming no subdirectory of an existing account
directory, discovery returns the empty list without raising, while the direct
single-role load of the same `R` raises `ConfigError` ("Role directory not
found"); the two operations intentionally differ on this input. -/
theorem claim_C5_missing_role_filter (base account R : String) (fs : RolesTree)
    (tree : AccountTree)
    (hacct : lookupKey fs account = some tree)
    (hmiss : lookupKey tree R = none) :
    discoverRoleConfigs base fs account (some R) = [] ∧
    loadRoleConfig base fs account R =
      Except.error ("Role directory not found: " ++ roleDirPath base account R) := by
  constructor
  · unfold discoverRoleConfigs
    rw [hacct]
    simp [hmiss]
  · unfold loadRoleConfig
    simp [hacct, hmiss]

/-- A valid single-role account tree used by the C5 witness. -/
def treeC5 : AccountTree :=
  [("Existing",
    [("details.json",
      some (Json.obj
        [("roleName", Json.str "Existing"),
         ("oidcProviderUrl", Json.str "https://token.actions.githubusercontent.com"),
         ("githubSubjectClaim", Json.str "repo:org/repo:ref:refs/heads/main")]))])]

/-- The roles tree used by the C5 witness. -/
def fsC5 : RolesTree := [("111122223333", treeC5)]

/-- Witness for C5: filtering for the nonexistent role directory "Ghost" under
account 111122223333 yields an empty discovery but an error from the direct
load. -/
theorem claim_C5_missing_role_filter_witness :
    discoverRoleConfigs "roles" fsC5 "111122223333" (some "Ghost") = [] ∧
    loadRoleConfig "roles" fsC5 "111122223333" "Ghost" =
      Except.error ("Role directory not found: " ++ roleDirPath "roles" "111122223333" "Ghost") :=
  claim_C5_missing_role_filter "roles" "111122223333" "Ghost" fsC5 treeC5 rfl rfl

/-- C4: batch discovery (no role filter) over an existing account directory
never raises: it returns a list in which every role directory whose load
succeeds contributes its RoleConfig, every role directory whose load raises
`ConfigError` is absent, and in particular a role directory with a missing
`details.json`, or with a `details.json` lacking one of the three required
keys, fails its load and is therefore excluded while well-formed siblings are
kept. -/
theorem claim_C4_discovery_partial_failure (base account : String) (fs : RolesTree)
    (tree : AccountTree) (hacct : lookupKey fs account = some tree) :
    (∀ name cfg, name ∈ tree.map Prod.fst →
        loadRoleConfig base fs account name = Except.ok cfg →
        cfg ∈ discoverRoleConfigs base fs account none) ∧
    (∀ name e, loadRoleConfig base fs account name = Except.error e →
        ∀ cfg ∈ discoverRoleConfigs base fs account none, cfg.role_name_dir ≠ name) ∧
    (∀ name dir, lookupKey tree name = some dir →
        lookupKey dir "details.json" = none →
        ∃ e, loadRoleConfig base fs account name = Except.error e) ∧
    (∀ name dir m, lookupKey tree name = some dir →
        lookupKey dir "details.json" = some (some (Json.obj m)) →
        (lookupKey m "roleName" = none ∨ lookupKey m "oidcProviderUrl" = none ∨
         lookupKey m "githubSubjectClaim" = none) →
        ∃ e, loadRoleConfig base fs account name = Except.error e) := by
  have hd := discoverRoleConfigs_none_eq base hacct
  refine ⟨?_, ?_, ?_, ?_⟩
  · intro name cfg hmem hload
    rw [hd]
    exact List.mem_filterMap.mpr ⟨name, hmem, by rw [hload]; rfl⟩
  · intro name e hload cfg hcfg
    rw [hd] at hcfg
    obtain ⟨name', hmem', hopt⟩ := List.mem_filterMap.mp hcfg
    cases hload' : loadRoleConfig base fs account name' with
    | error e' => rw [hload'] at hopt; simp [Except.toOption] at hopt
    | ok cfg' =>
      rw [hload'] at hopt
      simp [Except.toOption] at hopt
      subst hopt
      have hdirname := loadRoleConfig_ok_role_name_dir hload'
      intro hcontra
      have hnn : name' = name := hdirname.symm.trans hcontra
      rw [hnn, hload] at hload'
      simp at hload'
  · intro name dir hdir hnodet
    have hobj : loadJsonObj dir "details.json" false =
        Except.error "Required config file not found: details.json" := by
      unfold loadJsonObj
      rw [hnodet]
      rfl
    refine ⟨"Required config file not found: details.json", ?_⟩
    unfold loadRoleConfig
    simp [hacct, hdir, hobj]
  · intro name dir m hdir hdet hmissing
    have hobj : loadJsonObj dir "details.json" false = Except.ok m := by
      unfold loadJsonObj
      rw [hdet]
    have hne : (requiredDetailsFields.filter (fun f => (lookupKey m f).isNone)).isEmpty ≠ true := by
      have hfe : requiredDetailsFields.filter (fun f => (lookupKey m f).isNone) ≠ [] := by
        rcases hmissing with hm | hm | hm
        · have hmem : "roleName" ∈
              requiredDetailsFields.filter (fun f => (lookupKey m f).isNone) :=
            List.mem_filter.mpr ⟨by simp [requiredDetailsFields], by simp [hm]⟩
          exact List.ne_nil_of_mem hmem
        · have hmem : "oidcProviderUrl" ∈
              requiredDetailsFields.filter (fun f => (lookupKey m f).isNone) :=
            List.mem_filter.mpr ⟨by simp [requiredDetailsFields], by simp [hm]⟩
          exact List.ne_nil_of_mem hmem
        · have hmem : "githubSubjectClaim" ∈
              requiredDetailsFields.filter (fun f => (lookupKey m f).isNone) :=
            List.mem_filter.mpr ⟨by simp [requiredDetailsFields], by simp [hm]⟩
          exact List.ne_nil_of_mem hmem
      simpa [List.isEmpty_iff] using hfe
    refine ⟨"Missing required fields in details.json", ?_⟩
    unfold loadRoleConfig
    simp [hacct, hdir, hobj, hne]

/-- Details of the well-formed role directory in the C4 witness tree. -/
def detailsGoodC4 : List (String × Json) :=
  [("roleName", Json.str "GoodRole"),
   ("oidcProviderUrl", Json.str "https://token.actions.githubusercontent.com"),
   ("githubSubjectClaim", Json.str "repo:org/repo:ref:refs/heads/main")]

/-- Account directory of the C4 witness: one well-formed role directory and one
whose `details.json` lacks two of the three required keys. -/
def treeC4 : AccountTree :=
  [("Good", [("details.json", some (Json.obj detailsGoodC4))]),
   ("Bad", [("details.json", some (Json.obj [("roleName", Json.str "BadRole")]))])]

/-- Roles tree of the C4 witness. -/
def fsC4 : RolesTree := [("222233334444", treeC4)]

/-- The RoleConfig loaded from the well-formed directory of the C4 witness. -/
def goodCfgC4 : RoleConfig := ⟨"222233334444", "Good", detailsGoodC4, [], [], "roles"⟩

/-- Witness for C4: over an account directory holding the well-formed "Good"
and the invalid "Bad" role directories, discovery keeps "Good" and excludes
"Bad" without raising. -/
theorem claim_C4_discovery_partial_failure_witness :
    loadRoleConfig "roles" fsC4 "222233334444" "Good" = Except.ok goodCfgC4 ∧
    goodCfgC4 ∈ discoverRoleConfigs "roles" fsC4 "222233334444" none ∧
    (∀ cfg ∈ discoverRoleConfigs "roles" fsC4 "222233334444" none,
      cfg.role_name_dir ≠ "Bad") := by
  have h := claim_C4_discovery_partial_failure "roles" "222233334444" fsC4 treeC4 rfl
  refine ⟨rfl, ?_, ?_⟩
  · exact h.1 "Good" goodCfgC4 (by simp [treeC4]) rfl
  · exact h.2.1 "Bad" "Missing required fields in details.json" rfl

/-- In a listing with unique names, two entries under the same name carry the
same content. -/
theorem assoc_value_eq_of_nodup {α : Type} {l : List (String × α)}
    (hnd : (l.map Prod.fst).Nodup) {k : String} {a b : α}
    (ha : (k, a) ∈ l) (hb : (k, b) ∈ l) : a = b := by
  induction l with
  | nil => cases ha
  | cons kv rest ih =>
    obtain ⟨k0, v0⟩ := kv
    simp only [List.map_cons, List.nodup_cons] at hnd
    rcases List.mem_cons.mp ha with ha0 | ha0
    · rcases List.mem_cons.mp hb with hb0 | hb0
      · rw [Prod.mk.injEq] at ha0 hb0
        rw [ha0.2, hb0.2]
      · exfalso
        apply hnd.1
        rw [Prod.mk.injEq] at ha0
        rw [← ha0.1]
        exact List.mem_map.mpr ⟨(k, b), hb0, rfl⟩
    · rcases List.mem_cons.mp hb with hb0 | hb0
      · exfalso
        apply hnd.1
        rw [Prod.mk.injEq] at hb0
        rw [← hb0.1]
        exact List.mem_map.mpr ⟨(k, a), ha0, rfl⟩
      · exact ih hnd.2 ha0 hb0

/-- C6 amended: for a role directory whose `details.json` is valid and
complete and whose `managed-policies.json`, if present, is a valid JSON list,
a malformed `inline-*.json` file (undecodable or not a JSON object) does not
fail the role: `load_role_config` still returns the RoleConfig, the malformed
file's name is absent from `inline_policies`, and every well-formed
`inline-*.json` sibling is present.  (Without the managed-policies proviso the
original claim fails, see the counterexample.) -/
theorem claim_C6_inline_policy_skip (base account role : String) (fs : RolesTree)
    (tree : AccountTree) (dir : FileTree) (m : List (String × Json)) (l : List Json)
    (hacct : lookupKey fs account = some tree)
    (hrole : lookupKey tree role = some dir)
    (hdet : loadJsonObj dir "details.json" false = Except.ok m)
    (h1 : (lookupKey m "roleName").isSome)
    (h2 : (lookupKey m "oidcProviderUrl").isSome)
    (h3 : (lookupKey m "githubSubjectClaim").isSome)
    (hman : loadJsonList dir "managed-policies.json" true = Except.ok l)
    (hnd : (dir.map Prod.fst).Nodup)
    (badf : String) (badc : Option Json)
    (hbadmem : (badf, badc) ∈ dir)
    (hbadname : isInlineFileName badf = true)
    (hbadparse : ∀ o, badc ≠ some (Json.obj o)) :
    loadRoleConfig base fs account role =
      Except.ok ⟨account, role, m, l, inlinePoliciesOf dir, base⟩ ∧
    badf ∉ (inlinePoliciesOf dir).map Prod.fst ∧
    ∀ f o, (f, some (Json.obj o)) ∈ dir → isInlineFileName f = true →
      (f, Json.obj o) ∈ inlinePoliciesOf dir := by
  refine ⟨?_, ?_, ?_⟩
  · obtain ⟨v1, hv1⟩ := Option.isSome_iff_exists.mp h1
    obtain ⟨v2, hv2⟩ := Option.isSome_iff_exists.mp h2
    obtain ⟨v3, hv3⟩ := Option.isSome_iff_exists.mp h3
    have hfilter :
        requiredDetailsFields.filter (fun f => (lookupKey m f).isNone) = [] := by
      simp [requiredDetailsFields, List.filter, hv1, hv2, hv3]
    unfold loadRoleConfig
    simp [hacct, hrole, hdet, hfilter, hman]
  · intro hmem
    obtain ⟨entry, hentry, hfst⟩ := List.mem_map.mp hmem
    obtain ⟨fc, hfc, hval⟩ := List.mem_filterMap.mp hentry
    obtain ⟨f, c⟩ := fc
    by_cases hif : isInlineFileName f = true
    · rw [if_pos hif] at hval
      cases c with
      | none => simp at hval
      | some j =>
        cases j with
        | obj o =>
          simp only [Option.some.injEq] at hval
          have hfeq : f = badf := by rw [← hfst, ← hval]
          rw [hfeq] at hfc
          have := assoc_value_eq_of_nodup hnd hfc hbadmem
          exact hbadparse o this.symm
        | null => simp at hval
        | bool b => simp at hval
        | num n => simp at hval
        | str s => simp at hval
        | arr es => simp at hval
    · rw [if_neg hif] at hval
      simp at hval
  · intro f o hfo hif
    exact List.mem_filterMap.mpr ⟨(f, some (Json.obj o)), hfo, by simp [hif]⟩

/-- Valid and complete details of the C6 counterexample directory. -/
def detailsC6bad : List (String × Json) :=
  [("roleName", Json.str "Broken"),
   ("oidcProviderUrl", Json.str "https://token.actions.githubusercontent.com"),
   ("githubSubjectClaim", Json.str "repo:org/repo:ref:refs/heads/main")]

/-- C6 counterexample directory: details valid and complete, one malformed
inline policy file, and a `managed-policies.json` that is not a JSON list. -/
def dirC6bad : FileTree :=
  [("details.json", some (Json.obj detailsC6bad)),
   ("inline-bad.json", none),
   ("managed-policies.json", some (Json.str "oops"))]

/-- Roles tree of the C6 counterexample. -/
def fsC6bad : RolesTree := [("444455556666", [("Broken", dirC6bad)])]

/-- C6 counterexample: in the "Broken" role directory `details.json` is valid
and complete and `inline-bad.json` is a malformed inline policy file, yet
`load_role_config` raises (because the present `managed-policies.json` is not
a JSON list) — so, as stated, the claim that such a role still loads is
false. -/
theorem claim_C6_counterexample :
    lookupKey dirC6bad "details.json" = some (some (Json.obj detailsC6bad)) ∧
    (lookupKey detailsC6bad "roleName").isSome = true ∧
    (lookupKey detailsC6bad "oidcProviderUrl").isSome = true ∧
    (lookupKey detailsC6bad "githubSubjectClaim").isSome = true ∧
    isInlineFileName "inline-bad.json" = true ∧
    lookupKey dirC6bad "inline-bad.json" = some none ∧
    ∀ cfg, loadRoleConfig "roles" fsC6bad "444455556666" "Broken" ≠ Except.ok cfg := by
  refine ⟨rfl, rfl, rfl, rfl, rfl, rfl, ?_⟩
  intro cfg h
  have herr : loadRoleConfig "roles" fsC6bad "444455556666" "Broken" =
      Except.error "Config file managed-policies.json is not a valid JSON list." := rfl
  rw [herr] at h
  simp at h

/-- The valid and complete details of the C6 witness directory. -/
def detailsC6 : List (String × Json) :=
  [("roleName", Json.str "Mixed"),
   ("oidcProviderUrl", Json.str "https://token.actions.githubusercontent.com"),
   ("githubSubjectClaim", Json.str "repo:org/repo:ref:refs/heads/main")]

/-- The C6 witness directory: valid details, one malformed and one well-formed
inline policy file, no managed-policies file. -/
def dirC6 : FileTree :=
  [("details.json", some (Json.obj detailsC6)),
   ("inline-bad.json", none),
   ("inline-good.json", some (Json.obj [("Version", Json.str "2012-10-17")]))]

/-- Roles tree of the C6 witness. -/
def fsC6 : RolesTree := [("555566667777", [("Mixed", dirC6)])]

/-- Witness for C6: the "Mixed" role loads despite its malformed
`inline-bad.json`, which is excluded while `inline-good.json` is kept. -/
theorem claim_C6_inline_policy_skip_witness :
    loadRoleConfig "roles" fsC6 "555566667777" "Mixed" =
      Except.ok ⟨"555566667777", "Mixed", detailsC6, [], inlinePoliciesOf dirC6, "roles"⟩ ∧
    "inline-bad.json" ∉ (inlinePoliciesOf dirC6).map Prod.fst ∧
    ("inline-good.json", Json.obj [("Version", Json.str "2012-10-17")]) ∈
      inlinePoliciesOf dirC6 := by
  have h := claim_C6_inline_policy_skip "roles" "555566667777" "Mixed" fsC6
    [("Mixed", dirC6)] dirC6 detailsC6 [] rfl rfl rfl rfl rfl rfl rfl
    (by decide) "inline-bad.json" none (by simp [dirC6]) rfl
    (fun o hcontra => Option.noConfusion hcontra)
  refine ⟨h.1, h.2.1, ?_⟩
  exact h.2.2 "inline-good.json" [("Version", Json.str "2012-10-17")]
    (by simp [dirC6]) rfl

/-- Unfolds `_prepare_tags` in terms of `roleTags`: the role-specific update of the
defaults followed by the two computed traceability tags. -/
theorem prepareTags_eq (c : RoleConfig) :
    prepareTags c =
      setKey (setKey (updateKeys DEFAULT_TAGS (roleTags c)) "ConfigPath" (Json.str c.path))
        "AccountId" (Json.str c.account_id) := by
  unfold prepareTags roleTags
  cases h : lookupKey c.details "tags" with
  | none => rfl
  | some j => cases j <;> rfl

/-- C7: the tag map produced by `_prepare_tags` is the fixed default tags
overridden key-by-key by the role-specific tags (role values win), with the
two computed keys "ConfigPath" and "AccountId" then set to the RoleConfig's
derived filesystem path and account id; for every user-supplied tag map —
including one that itself binds "ConfigPath" or "AccountId" — the final values
of those two keys are the computed ones, never the user-supplied ones. -/
theorem claim_C7_prepare_tags (c : RoleConfig)
    (hnd : ((roleTags c).map Prod.fst).Nodup) :
    lookupKey (prepareTags c) "ConfigPath" = some (Json.str c.path) ∧
    lookupKey (prepareTags c) "AccountId" = some (Json.str c.account_id) ∧
    ∀ k, k ≠ "ConfigPath" → k ≠ "AccountId" →
      lookupKey (prepareTags c) k =
        orDefault (lookupKey (roleTags c) k) (lookupKey DEFAULT_TAGS k) := by
  rw [prepareTags_eq]
  refine ⟨?_, ?_, ?_⟩
  · rw [lookupKey_setKey_ne _ _ _ _ (by decide)]
    exact lookupKey_setKey_self _ _ _
  · exact lookupKey_setKey_self _ _ _
  · intro k hk1 hk2
    rw [lookupKey_setKey_ne _ _ _ _ hk2, lookupKey_setKey_ne _ _ _ _ hk1]
    exact lookupKey_updateKeys (roleTags c) hnd DEFAULT_TAGS k

/-- RoleConfig of the C7 witness: its user-supplied tags try to override the
computed "ConfigPath" and "AccountId" tags and do override "Environment". -/
def cfgC7 : RoleConfig :=
  ⟨"999988887777", "Audit",
   [("roleName", Json.str "Audit"),
    ("oidcProviderUrl", Json.str "https://token.actions.githubusercontent.com"),
    ("githubSubjectClaim", Json.str "repo:org/repo:ref:refs/heads/main"),
    ("tags", Json.obj
      [("ConfigPath", Json.str "evil-path"),
       ("AccountId", Json.str "000000000000"),
       ("Environment", Json.str "Production")])],
   [], [], "roles"⟩

/-- Witness for C7: despite the adversarial tag map of `cfgC7`, "ConfigPath"
and "AccountId" come out as the computed values, while the role's
"Environment" override wins over the default. -/
theorem claim_C7_prepare_tags_witness :
    lookupKey (prepareTags cfgC7) "ConfigPath" =
      some (Json.str "roles/999988887777/Audit") ∧
    lookupKey (prepareTags cfgC7) "AccountId" = some (Json.str "999988887777") ∧
    lookupKey (prepareTags cfgC7) "Environment" = some (Json.str "Production") ∧
    lookupKey (prepareTags cfgC7) "ManagedBy" = some (Json.str "OIDC-Role-Manager") := by
  have h := claim_C7_prepare_tags cfgC7 (by decide)
  refine ⟨h.1, h.2.1, ?_, ?_⟩
  · have h3 := h.2.2 "Environment" (by decide) (by decide)
    rw [h3]
    rfl
  · have h4 := h.2.2 "ManagedBy" (by decide) (by decide)
    rw [h4]
    rfl

/-- C1: for every RoleConfig whose details carry string values for roleName,
oidcProviderUrl and githubSubjectClaim and no audience key, the builder
succeeds and its trust-policy document contains exactly one statement, whose
condition uses the exact-match StringEquals operator binding
`{issuer-without-scheme}:sub` to the configured subject claim and
`{issuer-without-scheme}:aud` to the default audience "sts.amazonaws.com". -/
theorem claim_C1_trust_policy (c : RoleConfig) (rn url sub : String)
    (p : Option String)
    (h1 : lookupKey c.details "roleName" = some (Json.str rn))
    (h2 : lookupKey c.details "oidcProviderUrl" = some (Json.str url))
    (h3 : lookupKey c.details "githubSubjectClaim" = some (Json.str sub))
    (h4 : lookupKey c.details "audience" = none) :
    ∃ r, createIamRoleForGithubOidc c p = some r ∧
      r.assumeRolePolicy.statements =
        [{ effect := "Allow",
           principalFederated :=
             "arn:aws:iam::" ++ c.account_id ++ ":oidc-provider/" ++ stripScheme url,
           action := "sts:AssumeRoleWithWebIdentity",
           condition :=
             [("StringEquals",
               [(stripScheme url ++ ":sub", sub),
                (stripScheme url ++ ":aud", "sts.amazonaws.com")])] }] := by
  have haud : audienceOf c.details = some "sts.amazonaws.com" := by
    unfold audienceOf
    rw [h4]
  unfold createIamRoleForGithubOidc
  rw [h1, h2, h3, haud]
  exact ⟨_, rfl, rfl⟩

/-- RoleConfig of the C1 witness, the scenario from the specification. -/
def cfgC1 : RoleConfig :=
  ⟨"123456789012", "Deploy",
   [("roleName", Json.str "Deploy"),
    ("oidcProviderUrl", Json.str "https://token.actions.githubusercontent.com"),
    ("githubSubjectClaim", Json.str "repo:org/repo:ref:refs/heads/main")],
   [], [], "roles"⟩

/-- Witness for C1 at the GitHub issuer URL: the condition keys come out as
`token.actions.githubusercontent.com:sub` and
`token.actions.githubusercontent.com:aud`, with the default audience. -/
theorem claim_C1_trust_policy_witness :
    ∃ r, createIamRoleForGithubOidc cfgC1 none = some r ∧
      r.assumeRolePolicy.statements =
        [{ effect := "Allow",
           principalFederated :=
             "arn:aws:iam::123456789012:oidc-provider/token.actions.githubusercontent.com",
           action := "sts:AssumeRoleWithWebIdentity",
           condition :=
             [("StringEquals",
               [("token.actions.githubusercontent.com:sub",
                 "repo:org/repo:ref:refs/heads/main"),
                ("token.actions.githubusercontent.com:aud",
                 "sts.amazonaws.com")])] }] := by
  obtain ⟨r, hr, hs⟩ := claim_C1_trust_policy cfgC1 "Deploy"
    "https://token.actions.githubusercontent.com" "repo:org/repo:ref:refs/heads/main"
    none rfl rfl rfl rfl
  refine ⟨r, hr, ?_⟩
  rw [hs]
  decide

/-- C2: the resource definition builder is a deterministic function of the
RoleConfig alone: its role identifier is `{account_id}-{roleName}-role`, its
managed-policy attachment identifiers are `{account_id}-{roleName}-managed-{i}`
indexed by position, its inline-policy identifiers are
`{account_id}-{roleName}-inline-{derivedName}`, and any second invocation —
with any provider argument — yields the identical BuiltRole, in particular the
identical trust-policy document. -/
theorem claim_C2_builder_deterministic (c : RoleConfig) (rn url sub aud : String)
    (p : Option String)
    (h1 : lookupKey c.details "roleName" = some (Json.str rn))
    (h2 : lookupKey c.details "oidcProviderUrl" = some (Json.str url))
    (h3 : lookupKey c.details "githubSubjectClaim" = some (Json.str sub))
    (haud : audienceOf c.details = some aud) :
    ∃ r, createIamRoleForGithubOidc c p = some r ∧
      r.pulumiRoleName = c.account_id ++ "-" ++ rn ++ "-role" ∧
      r.managedAttachments = c.managed_policies.enum.map
          (fun q => (c.account_id ++ "-" ++ rn ++ "-managed-" ++ toString q.1, q.2)) ∧
      r.inlinePolicies = c.inline_policies.map
          (fun fp => (c.account_id ++ "-" ++ rn ++ "-inline-" ++ cleanedPolicyName fp.1,
                      rn ++ "-" ++ cleanedPolicyName fp.1, fp.2)) ∧
      ∀ (p2 : Option String) (r2 : BuiltRole),
        createIamRoleForGithubOidc c p2 = some r2 → r2 = r := by
  unfold createIamRoleForGithubOidc
  rw [h1, h2, h3, haud]
  refine ⟨_, rfl, rfl, rfl, rfl, ?_⟩
  intro p2 r2 hr2
  simpa using hr2.symm

/-- RoleConfig of the C2 witness, with one managed and one inline policy. -/
def cfgC2 : RoleConfig :=
  ⟨"123456789012", "Deployer",
   [("roleName", Json.str "Deployer"),
    ("oidcProviderUrl", Json.str "https://token.actions.githubusercontent.com"),
    ("githubSubjectClaim", Json.str "repo:org/repo:ref:refs/heads/main")],
   [Json.str "arn:aws:iam::aws:policy/ReadOnlyAccess"],
   [("inline-CloudWatchLogs.json", Json.obj [("Version", Json.str "2012-10-17")])],
   "roles"⟩

/-- Witness for C2: the concrete identifiers of `cfgC2`, and a second build
with a different provider argument returning the identical BuiltRole. -/
theorem claim_C2_builder_deterministic_witness :
    ∃ r, createIamRoleForGithubOidc cfgC2 none = some r ∧
      r.pulumiRoleName = "123456789012-Deployer-role" ∧
      r.managedAttachments =
        [("123456789012-Deployer-managed-0",
          Json.str "arn:aws:iam::aws:policy/ReadOnlyAccess")] ∧
      r.inlinePolicies =
        [("123456789012-Deployer-inline-CloudWatchLogs", "Deployer-CloudWatchLogs",
          Json.obj [("Version", Json.str "2012-10-17")])] ∧
      ∀ r2, createIamRoleForGithubOidc cfgC2 (some "us-east-1") = some r2 → r2 = r := by
  obtain ⟨r, hr, hrole, hman, hinl, hdet⟩ := claim_C2_builder_deterministic cfgC2
    "Deployer" "https://token.actions.githubusercontent.com"
    "repo:org/repo:ref:refs/heads/main" "sts.amazonaws.com" none rfl rfl rfl rfl
  refine ⟨r, hr, ?_, ?_, ?_, fun r2 h => hdet (some "us-east-1") r2 h⟩
  · rw [hrole]; rfl
  · rw [hman]; rfl
  · rw [hinl]; rfl

/-- Scanning an empty subject returns the empty string for any fuel. -/
theorem removeAllAux_nil_input (f : Nat) (pat : List Char) :
    removeAllAux f pat [] = [] := by
  cases f <;> rfl

/-- Deleting the first occurrence of a pattern from a string that starts with
it removes exactly that leading copy. -/
theorem removeFirstOcc_pat_append (pat rest : List Char) (hp : pat ≠ []) :
    removeFirstOcc pat (pat ++ rest) = rest := by
  cases pat with
  | nil => exact absurd rfl hp
  | cons p ps =>
    have hpre : (p :: ps).isPrefixOf ((p :: ps) ++ rest) = true :=
      List.isPrefixOf_iff_prefix.mpr (List.prefix_append _ _)
    rw [List.cons_append] at hpre
    rw [List.cons_append]
    simp only [removeFirstOcc, hpre, if_true]
    rw [← List.cons_append]
    exact List.drop_left _ _

/-- Deleting every occurrence of a border-free pattern from `X ++ pat`, where
`pat` does not occur inside `X`, removes exactly the final copy. -/
theorem removeAllAux_no_occurrence (pat : List Char) (hp : pat ≠ [])
    (hb : ∀ k, k < pat.length → 0 < k →
      pat.take k ≠ pat.drop (pat.length - k)) :
    ∀ X : List Char, ¬ (pat <:+: X) →
      removeAllAux (X.length + pat.length) pat (X ++ pat) = X := by
  intro X
  induction X with
  | nil =>
    intro _
    cases pat with
    | nil => exact absurd rfl hp
    | cons p ps =>
      have hpre : (p :: ps).isPrefixOf (p :: ps) = true :=
        List.isPrefixOf_iff_prefix.mpr List.prefix_rfl
      show removeAllAux (List.length [] + (p :: ps).length) (p :: ps)
        ([] ++ (p :: ps)) = []
      rw [List.length_nil, Nat.zero_add, List.nil_append, List.length_cons]
      simp only [removeAllAux, hpre]
      rw [List.drop_length]
      exact removeAllAux_nil_input _ _
  | cons c X' ih =>
    intro hX
    have hX' : ¬ (pat <:+: X') := fun h => hX (List.infix_cons h)
    have hfalse : pat.isPrefixOf (c :: (X' ++ pat)) = false := by
      cases htest : pat.isPrefixOf (c :: (X' ++ pat)) with
      | false => rfl
      | true =>
        exfalso
        have hpfx : pat <+: (c :: X') ++ pat := by
          rw [List.cons_append]
          exact List.isPrefixOf_iff_prefix.mp htest
        have hpe := List.prefix_iff_eq_take.mp hpfx
        rw [List.take_append_eq_append_take] at hpe
        by_cases hlen : pat.length ≤ (c :: X').length
        · rw [Nat.sub_eq_zero_of_le hlen, List.take_zero, List.append_nil] at hpe
          have hpre2 : pat <+: c :: X' := by
            rw [hpe]
            exact List.take_prefix _ _
          exact hX hpre2.isInfix
        · push_neg at hlen
          rw [List.take_of_length_le (Nat.le_of_lt hlen)] at hpe
          have hkpos : 0 < pat.length - (c :: X').length :=
            Nat.sub_pos_of_lt hlen
          have hklt : pat.length - (c :: X').length < pat.length :=
            Nat.sub_lt (Nat.lt_of_le_of_lt (Nat.zero_le _) hlen) (by simp)
          apply hb (pat.length - (c :: X').length) hklt hkpos
          rw [Nat.sub_sub_self (Nat.le_of_lt hlen)]
          calc pat.take (pat.length - (c :: X').length)
              = List.drop (c :: X').length
                  ((c :: X') ++ pat.take (pat.length - (c :: X').length)) :=
                (List.drop_left _ _).symm
            _ = pat.drop (c :: X').length := by rw [← hpe]
    show removeAllAux ((c :: X').length + pat.length) pat ((c :: X') ++ pat) = c :: X'
    rw [List.length_cons, List.cons_append]
    have hfuel : X'.length + 1 + pat.length = (X'.length + pat.length) + 1 := by
      omega
    rw [hfuel]
    simp only [removeAllAux, hfalse]
    rw [if_neg (by simp)]
    rw [ih hX']

/-- For a filename `inline-X.json` whose middle part `X` contains no occurrence
of ".json", the cleaning in `_attach_inline_policies` leaves `X` intact. -/
theorem cleanedPolicyName_intact (X : String)
    (hX : ¬ (".json".data <:+: X.data)) :
    cleanedPolicyName ("inline-" ++ X ++ ".json") = X := by
  obtain ⟨Xl⟩ := X
  have hmk : ∀ l : List Char, (String.mk l).data = l := fun l => rfl
  have hdata : ("inline-" ++ String.mk Xl ++ ".json").data =
      "inline-".data ++ (Xl ++ ".json".data) := by
    rw [String.data_append, String.data_append, List.append_assoc, hmk]
  have h1 : removeFirstOcc ("inline-".data) ("inline-" ++ String.mk Xl ++ ".json").data =
      Xl ++ ".json".data := by
    rw [hdata]
    exact removeFirstOcc_pat_append _ _ (by decide)
  unfold cleanedPolicyName pyReplaceAllEmpty pyReplaceOnceEmpty removeAllOcc
  rw [h1, hmk, List.length_append]
  rw [removeAllAux_no_occurrence ".json".data (by decide) (by decide) Xl hX]

/-- C8 counterexample: the claim says the derived policy name strips exactly
the fixed leading `inline-` and trailing `.json`, leaving the middle `X`
intact; but the code deletes every occurrence of ".json", so for the file
`inline-a.json.json` (middle part "a.json") the derived name is "a", not the
"a.json" the claimed stripping rule produces. -/
theorem claim_C8_counterexample :
    "inline-a.json.json" = "inline-" ++ "a.json" ++ ".json" ∧
    specStripPolicyName "inline-a.json.json" = "a.json" ∧
    cleanedPolicyName "inline-a.json.json" = "a" ∧
    cleanedPolicyName "inline-a.json.json" ≠ specStripPolicyName "inline-a.json.json" := by
  refine ⟨rfl, rfl, rfl, ?_⟩
  decide

/-- C8 amended: the derived policy name deletes the first occurrence of
`inline-` and every occurrence of `.json` from the source filename — which
coincides with stripping the fixed prefix and suffix, leaving `X` intact,
exactly when `X` contains no ".json" — and the cloud-side inline policy name
composes `{roleName}-{derivedName}`; the derivation is a pure function of the
filename, hence stable across runs. -/
theorem claim_C8_inline_policy_naming (X rn : String)
    (hX : ¬ (".json".data <:+: X.data)) :
    cleanedPolicyName ("inline-" ++ X ++ ".json") = X ∧
    rn ++ "-" ++ cleanedPolicyName ("inline-" ++ X ++ ".json") = rn ++ "-" ++ X := by
  have h := cleanedPolicyName_intact X hX
  exact ⟨h, by rw [h]⟩

/-- Witness for C8 at the repository's own example filename
`inline-CloudWatchLogs.json` and role name "Deployer". -/
theorem claim_C8_inline_policy_naming_witness :
    cleanedPolicyName "inline-CloudWatchLogs.json" = "CloudWatchLogs" ∧
    "Deployer" ++ "-" ++ cleanedPolicyName "inline-CloudWatchLogs.json" =
      "Deployer" ++ "-" ++ "CloudWatchLogs" :=
  claim_C8_inline_policy_naming "CloudWatchLogs" "Deployer" (by decide)
